import Mathlib

/-!
Verification of the asynchronous mutation pipeline of the serverless-lab
directory service (`handler.js` + `serverless.yml`).

The shallow embedding below models:
  * the two DynamoDB tables (`Organizations` keyed by `orgId`, `Users` keyed
    by `userId`) as association lists with first-match lookup and
    replace-or-append put, which is how a keyed table behaves;
  * JavaScript truthiness of optional string request fields (`undefined` and
    `""` are falsy), since the handlers guard every field with `if (!x)`;
  * the SQS message payloads (`operation` + `data`), where every `data` field
    is optional because `JSON.stringify` drops `undefined` members;
  * the consumer `processSqsMessages`: a fold over the batch records that
    dispatches on the `operation` string, performs the corresponding DynamoDB
    write, skips unknown operations, and aborts the whole batch with the
    raised error on the first failing record (a record whose body does not
    parse, whose `data` member is missing, or whose DynamoDB call is rejected
    because the key attribute is absent);
  * the producer lambdas `createOrganization`, `updateOrganization`,
    `createOrUpdateUser` and the read lambda `getUser`, each returning the
    HTTP status, the list of SQS messages published, the entity id returned
    in the body, and the (never directly mutated) store.

Fresh UUIDs and `new Date().toISOString()` timestamps are environment inputs
and appear as explicit parameters (`freshId`, `now`).
-/

namespace ServerlessLab

/-- JavaScript truthiness of an optional string field: a missing
(`undefined`) field and the empty string are falsy, every other string is
truthy.  This is the semantics of the `if (!x)` guards in `handler.js`. -/
def truthy : Option String → Bool
  | none => false
  | some s => s != ""

/-- Keyed-table write (DynamoDB `put` / upsert): replace the first binding of
the key, or append a new binding when the key is absent. -/
def putA {α : Type} (k : String) (v : α) : List (String × α) → List (String × α)
  | [] => [(k, v)]
  | (k2, v2) :: t => if k = k2 then (k, v) :: t else (k2, v2) :: putA k v t

/-- Keyed-table point read (DynamoDB `get`): first binding of the key. -/
def lookupA {α : Type} (k : String) : List (String × α) → Option α
  | [] => none
  | (k2, v) :: t => if k = k2 then some v else lookupA k t

/-- An item of the `Organizations` table.  The key attribute `orgId` is the
association-list key; every other attribute is optional because DynamoDB
items only contain the attributes that were actually written. -/
structure OrgItem where
  name : Option String
  description : Option String
  createdAt : Option String
  updatedAt : Option String
deriving DecidableEq

/-- An item of the `Users` table, keyed by `userId` (the association-list
key; the `userId` attribute of a stored item always equals the table key, so
the model does not duplicate it). -/
structure UserItem where
  orgId : Option String
  name : Option String
  email : Option String
  createdAt : Option String
  updatedAt : Option String
deriving DecidableEq

/-- The record store: the two DynamoDB tables. -/
structure Store where
  orgs : List (String × OrgItem)
  users : List (String × UserItem)
deriving DecidableEq

/-- The `data` member of an SQS message.  All fields are optional: the
producers build it by object literal and `JSON.stringify` drops `undefined`
members. -/
structure IntentData where
  orgId : Option String
  userId : Option String
  name : Option String
  email : Option String
  description : Option String
  createdAt : Option String
  updatedAt : Option String
deriving DecidableEq

/-- A parsed SQS message body: `operation` and `data` are optional because a
well-formed JSON object need not contain either member. -/
structure Message where
  operation : Option String
  data : Option IntentData
deriving DecidableEq

/-- One record of an SQS batch: `body` is `none` when `JSON.parse` of the
raw body throws. -/
structure SqsRecord where
  body : Option Message
deriving DecidableEq

/-- Errors raised while processing one SQS record: a body that does not
parse, a `data` member that is missing (the JS code would throw a
`TypeError` dereferencing it), or a DynamoDB call rejected because the key
attribute is absent from the request. -/
inductive ConsumerError where
  | parseError
  | typeError
  | storeError
deriving DecidableEq

/-- Consumer apply of a `createOrganization` intent: an unconditional full
`put` keyed by `data.orgId`, with every item attribute taken from the
intent. -/
def applyCreateOrg (s : Store) (d : IntentData) : Except ConsumerError Store :=
  match d.orgId with
  | none => .error .storeError
  | some k => .ok ⟨putA k ⟨d.name, d.description, d.createdAt, d.updatedAt⟩ s.orgs, s.users⟩

/-- Consumer apply of an `updateOrganization` intent: a partial `update`
keyed by `data.orgId` that sets `name` and `description` only when truthy in
the intent and always sets `updatedAt` to the value carried in the intent;
DynamoDB upserts, so a missing item is created from the written fields. -/
def applyUpdateOrg (s : Store) (d : IntentData) : Except ConsumerError Store :=
  match d.orgId, d.updatedAt with
  | some k, some t =>
    let base := (lookupA k s.orgs).getD ⟨none, none, none, none⟩
    .ok ⟨putA k ⟨if truthy d.name then d.name else base.name,
                 if truthy d.description then d.description else base.description,
                 base.createdAt, some t⟩ s.orgs, s.users⟩
  | _, _ => .error .storeError

/-- Consumer apply of a `createUser` intent: an unconditional full `put`
keyed by `data.userId`. -/
def applyCreateUser (s : Store) (d : IntentData) : Except ConsumerError Store :=
  match d.userId with
  | none => .error .storeError
  | some k => .ok ⟨s.orgs, putA k ⟨d.orgId, d.name, d.email, d.createdAt, d.updatedAt⟩ s.users⟩

/-- Consumer apply of an `updateUser` intent: a partial `update` keyed by
`data.userId` that sets `name` and `email` only when truthy in the intent
and always sets `updatedAt` from the intent; it never writes `orgId` or
`createdAt`.  DynamoDB upserts, so a missing item is created from the
written fields alone. -/
def applyUpdateUser (s : Store) (d : IntentData) : Except ConsumerError Store :=
  match d.userId, d.updatedAt with
  | some k, some t =>
    let base := (lookupA k s.users).getD ⟨none, none, none, none, none⟩
    .ok ⟨s.orgs, putA k ⟨base.orgId,
                         if truthy d.name then d.name else base.name,
                         if truthy d.email then d.email else base.email,
                         base.createdAt, some t⟩ s.users⟩
  | _, _ => .error .storeError

/-- The `switch (operation)` dispatch of the consumer.  An operation value
that matches none of the four cases (including a missing `operation`
member) falls through to the `default:` branch, which only logs and leaves
the store untouched.  A known operation whose `data` member is missing
raises (the JS body dereferences `data` and the `TypeError` is caught and
re-thrown). -/
def applyMessage (s : Store) (op : Option String) (d : Option IntentData) :
    Except ConsumerError Store :=
  if op = some "createOrganization" then
    match d with
    | none => .error .typeError
    | some d0 => applyCreateOrg s d0
  else if op = some "updateOrganization" then
    match d with
    | none => .error .typeError
    | some d0 => applyUpdateOrg s d0
  else if op = some "createUser" then
    match d with
    | none => .error .typeError
    | some d0 => applyCreateUser s d0
  else if op = some "updateUser" then
    match d with
    | none => .error .typeError
    | some d0 => applyUpdateUser s d0
  else .ok s

/-- Processing of one SQS record: parse the body (a failure is caught and
re-thrown by the surrounding try/catch), then dispatch on the operation. -/
def processRecord (s : Store) (r : SqsRecord) : Except ConsumerError Store :=
  match r.body with
  | none => .error .parseError
  | some m => applyMessage s m.operation m.data

/-- The consumer lambda `processSqsMessages`: fold over the batch records in
order; the first record whose processing raises aborts the loop and
re-throws, leaving the effects of the earlier records in place (the returned
store) and reporting the error to the delivery mechanism. -/
def processSqsMessages (recs : List SqsRecord) (s : Store) : Store × Option ConsumerError :=
  match recs with
  | [] => (s, none)
  | r :: t =>
    match processRecord s r with
    | .ok s2 => processSqsMessages t s2
    | .error e => (s, some e)

/-- Result of a producer (or read) lambda: HTTP status code, the SQS
messages published during the call, the entity id returned in the response
body (when any), and the store — threaded unchanged, because the async
producer path never writes to DynamoDB. -/
structure ProducerResult where
  status : Nat
  published : List Message
  entityId : Option String
  store : Store
deriving DecidableEq

/-- The scan of the `Organizations` table with an equality filter on the name attribute used
by the create-organization pre-flight uniqueness check. -/
def orgsWithName (n : String) (orgs : List (String × OrgItem)) : List (String × OrgItem) :=
  orgs.filter fun p => p.2.name == some n

/-- The `OrgId-index` query with filter `email = :email` used by the user
pre-flight uniqueness check.  Returned items carry the table key (the
`userId` attribute of a stored item always equals its key). -/
def usersWithEmail (o e : String) (users : List (String × UserItem)) : List (String × UserItem) :=
  users.filter fun p => p.2.orgId == some o && p.2.email == some e

/-- Producer lambda for POST /organizations: validate presence of `name` and
`description`, scan for a name conflict, then publish one
`createOrganization` intent carrying a fresh `orgId` and fresh timestamps
and answer 202. -/
def createOrganization (s : Store) (name description : Option String)
    (freshId now : String) : ProducerResult :=
  match name, description with
  | some n, some dsc =>
    if n == "" || dsc == "" then ⟨400, [], none, s⟩
    else if orgsWithName n s.orgs = [] then
      ⟨202, [⟨some "createOrganization",
              some ⟨some freshId, none, some n, none, some dsc, some now, some now⟩⟩],
       some freshId, s⟩
    else ⟨409, [], none, s⟩
  | _, _ => ⟨400, [], none, s⟩

/-- Producer lambda for PUT /organizations: validate `orgId` and at least
one of `name`/`description`, check the organization exists, then publish one
`updateOrganization` intent carrying the request fields as given plus a
fresh `updatedAt` (and no `createdAt`) and answer 202. -/
def updateOrganization (s : Store) (orgId name description : Option String)
    (now : String) : ProducerResult :=
  match orgId with
  | some o =>
    if o == "" then ⟨400, [], none, s⟩
    else if truthy name = false && truthy description = false then ⟨400, [], none, s⟩
    else
      match lookupA o s.orgs with
      | none => ⟨404, [], none, s⟩
      | some _ =>
        ⟨202, [⟨some "updateOrganization",
                some ⟨some o, none, name, none, description, none, some now⟩⟩],
         some o, s⟩
  | none => ⟨400, [], none, s⟩

/-- The HTTP method of a user mutation request. -/
inductive Method where
  | post
  | put
deriving DecidableEq

/-- The `userId || uuidv4()` resolution of the target user id: the body
value when truthy, otherwise a fresh id. -/
def resolveId (userId : Option String) (freshId : String) : String :=
  match userId with
  | some u => if u == "" then freshId else u
  | none => freshId

/-- Producer lambda for POST/PUT /organizations/\x7borgId\x7d/users: validate
presence of `orgId`, `name`, `email`; 404 when the organization is absent;
resolve the user id; 409 when the first user found with the same email in
the organization is a different user (or on any match for POST); otherwise
publish one `createUser`/`updateUser` intent with fresh timestamps and
answer 202 with the resolved id. -/
def createOrUpdateUser (s : Store) (m : Method)
    (orgId userId name email : Option String) (freshId now : String) : ProducerResult :=
  match orgId, name, email with
  | some o, some n, some e =>
    if o == "" || n == "" || e == "" then ⟨400, [], none, s⟩
    else
      match lookupA o s.orgs with
      | none => ⟨404, [], none, s⟩
      | some _ =>
        let newUserId := resolveId userId freshId
        let conflict :=
          match usersWithEmail o e s.users with
          | [] => false
          | ex :: _ => m == Method.post || (m == Method.put && ex.1 != newUserId)
        if conflict then ⟨409, [], none, s⟩
        else
          ⟨202, [⟨some (if m == Method.post then "createUser" else "updateUser"),
                  some ⟨some o, some newUserId, some n, some e, none, some now, some now⟩⟩],
           some newUserId, s⟩
  | _, _, _ => ⟨400, [], none, s⟩

/-- Read lambda for GET /organizations/\x7borgId\x7d/users/\x7buserId\x7d: point get of
the `Users` table by `userId` alone, then an explicit check that the fetched
orgId attribute of the item equals the requested scope; 404 otherwise. -/
def getUser (s : Store) (orgId userId : Option String) :
    Nat × Option UserItem × Store :=
  match orgId, userId with
  | some o, some u =>
    if o == "" || u == "" then (400, none, s)
    else
      match lookupA u s.users with
      | some it => if it.orgId == some o then (200, some it, s) else (404, none, s)
      | none => (404, none, s)
  | _, _ => (400, none, s)

/-- One mutation request of the sequential (submit, then fully apply)
regime, together with the fresh id and timestamp the environment supplies
for it. -/
inductive Req where
  | createOrg (name description : Option String) (freshId now : String)
  | updateOrg (orgId name description : Option String) (now : String)
  | submitUser (m : Method) (orgId userId name email : Option String) (freshId now : String)
deriving DecidableEq

/-- Consume the intent published by an accepted producer call: a rejected
call published nothing and the store is unchanged; an accepted call
published exactly one message, which the consumer applies (an apply failure
would leave the store unchanged; producer-built intents never fail). -/
def applyAccepted (s : Store) (pr : ProducerResult) : Store :=
  match pr.published with
  | [m] =>
    match applyMessage s m.operation m.data with
    | .ok s2 => s2
    | .error _ => s
  | _ => s

/-- One step of the sequential regime: submit the request against the
current store and, when it is accepted, apply its intent before the next
request is submitted. -/
def runReq (s : Store) (r : Req) : Store :=
  match r with
  | .createOrg nm dsc f t => applyAccepted s (createOrganization s nm dsc f t)
  | .updateOrg o nm dsc t => applyAccepted s (updateOrganization s o nm dsc t)
  | .submitUser m o u nm e f t => applyAccepted s (createOrUpdateUser s m o u nm e f t)

/-- Run a sequence of sequential-regime mutation requests. -/
def runReqs (s : Store) : List Req → Store
  | [] => s
  | r :: rs => runReqs (runReq s r) rs

/-- The HTTP status a request would receive when submitted against a given
store. -/
def reqStatus (s : Store) (r : Req) : Nat :=
  match r with
  | .createOrg nm dsc f t => (createOrganization s nm dsc f t).status
  | .updateOrg o nm dsc t => (updateOrganization s o nm dsc t).status
  | .submitUser m o u nm e f t => (createOrUpdateUser s m o u nm e f t).status

/-- Every request of the sequence is accepted (202) at the moment it is
submitted. -/
def AllAccepted : Store → List Req → Prop
  | _, [] => True
  | s, r :: rs => reqStatus s r = 202 ∧ AllAccepted (runReq s r) rs

/-- Scoped email uniqueness: no two distinct stored users that belong to the
same organization carry the same email. -/
def NoDupEmails (users : List (String × UserItem)) : Prop :=
  ∀ k1 k2 u1 u2 o e, k1 ≠ k2 →
    lookupA k1 users = some u1 → lookupA k2 users = some u2 →
    u1.orgId = some o → u2.orgId = some o →
    u1.email = some e → u2.email = some e → False

/-- Side condition on a user-update request: the resolved target user id is
either absent from the store or names a user that belongs to the requested
organization (the producer itself never checks this). -/
def ReqSafe (s : Store) (r : Req) : Prop :=
  match r with
  | .submitUser .put orgId userId _ _ freshId _ =>
    ∀ u, lookupA (resolveId userId freshId) s.users = some u → u.orgId = orgId
  | _ => True

/-- Every request of the sequence satisfies its side condition at the store
state against which it runs. -/
def RunSafe : Store → List Req → Prop
  | _, [] => True
  | s, r :: rs => ReqSafe s r ∧ RunSafe (runReq s r) rs

theorem putA_cons_self {α : Type} (k : String) (v v2 : α) (t : List (String × α)) :
    putA k v ((k, v2) :: t) = (k, v) :: t := by
  simp [putA]

theorem putA_cons_ne {α : Type} {k k2 : String} (h : ¬k = k2) (v v2 : α)
    (t : List (String × α)) :
    putA k v ((k2, v2) :: t) = (k2, v2) :: putA k v t := by
  simp [putA, if_neg h]

theorem lookupA_putA {α : Type} (k k0 : String) (v : α) (l : List (String × α)) :
    lookupA k (putA k0 v l) = if k = k0 then some v else lookupA k l := by
  induction l with
  | nil => simp [putA, lookupA]
  | cons p t ih =>
    obtain ⟨k2, v2⟩ := p
    by_cases h0 : k0 = k2
    · subst h0
      by_cases h1 : k = k0 <;> simp [putA, lookupA, h1]
    · by_cases h1 : k = k2
      · subst h1
        have h2 : ¬k = k0 := fun h => h0 h.symm
        simp [putA, if_neg h0, lookupA, h2]
      · simp [putA, if_neg h0, lookupA, if_neg h1, ih]

theorem putA_putA {α : Type} (k : String) (v w : α) (l : List (String × α)) :
    putA k v (putA k w l) = putA k v l := by
  induction l with
  | nil => simp [putA]
  | cons p t ih =>
    obtain ⟨k2, v2⟩ := p
    by_cases h0 : k = k2
    · subst h0
      simp [putA]
    · simp [putA, if_neg h0, ih]

theorem lookupA_mem {α : Type} {k : String} {v : α} {l : List (String × α)}
    (h : lookupA k l = some v) : (k, v) ∈ l := by
  induction l with
  | nil => simp [lookupA] at h
  | cons p t ih =>
    obtain ⟨k2, v2⟩ := p
    by_cases h0 : k = k2
    · subst h0
      simp [lookupA] at h
      subst h
      exact List.mem_cons_self _ _
    · simp [lookupA, if_neg h0] at h
      exact List.mem_cons_of_mem _ (ih h)

theorem lookupA_of_mem_nodup {α : Type} {l : List (String × α)}
    (hnd : (l.map Prod.fst).Nodup) {k : String} {v : α} (h : (k, v) ∈ l) :
    lookupA k l = some v := by
  induction l with
  | nil => simp at h
  | cons p t ih =>
    obtain ⟨k2, v2⟩ := p
    simp only [List.map_cons, List.nodup_cons] at hnd
    rcases List.mem_cons.mp h with h1 | h1
    · have hk : k = k2 := congrArg Prod.fst h1
      have hv : v = v2 := congrArg Prod.snd h1
      subst hk
      subst hv
      simp [lookupA]
    · have hk : ¬k = k2 := by
        intro he
        subst he
        exact hnd.1 (List.mem_map.mpr ⟨(k, v), h1, rfl⟩)
      simp only [lookupA, if_neg hk]
      exact ih hnd.2 h1

theorem mem_keys_putA {α : Type} {a k : String} {v : α} {l : List (String × α)}
    (h : a ∈ (putA k v l).map Prod.fst) : a = k ∨ a ∈ l.map Prod.fst := by
  induction l with
  | nil =>
    simp [putA] at h
    exact Or.inl h
  | cons p t ih =>
    obtain ⟨k2, v2⟩ := p
    by_cases h0 : k = k2
    · subst h0
      rw [putA_cons_self, List.map_cons, List.mem_cons] at h
      rcases h with h | h
      · exact Or.inl h
      · exact Or.inr (List.mem_cons.mpr (Or.inr h))
    · rw [putA_cons_ne h0, List.map_cons, List.mem_cons] at h
      rcases h with h | h
      · exact Or.inr (List.mem_cons.mpr (Or.inl h))
      · rcases ih h with h1 | h1
        · exact Or.inl h1
        · exact Or.inr (List.mem_cons.mpr (Or.inr h1))

theorem nodup_keys_putA {α : Type} {k : String} {v : α} {l : List (String × α)}
    (hnd : (l.map Prod.fst).Nodup) : ((putA k v l).map Prod.fst).Nodup := by
  induction l with
  | nil => simp [putA]
  | cons p t ih =>
    obtain ⟨k2, v2⟩ := p
    simp only [List.map_cons, List.nodup_cons] at hnd
    by_cases h0 : k = k2
    · subst h0
      rw [putA_cons_self, List.map_cons, List.nodup_cons]
      exact hnd
    · rw [putA_cons_ne h0, List.map_cons, List.nodup_cons]
      refine ⟨fun hmem => ?_, ih hnd.2⟩
      rcases mem_keys_putA hmem with h1 | h1
      · exact h0 h1.symm
      · exact hnd.1 h1

theorem applyMessage_createOrg (s : Store) (d : IntentData) :
    applyMessage s (some "createOrganization") (some d) = applyCreateOrg s d := rfl

theorem applyMessage_updateOrg (s : Store) (d : IntentData) :
    applyMessage s (some "updateOrganization") (some d) = applyUpdateOrg s d := rfl

theorem applyMessage_createUser (s : Store) (d : IntentData) :
    applyMessage s (some "createUser") (some d) = applyCreateUser s d := rfl

theorem applyMessage_updateUser (s : Store) (d : IntentData) :
    applyMessage s (some "updateUser") (some d) = applyUpdateUser s d := rfl

/-- C1: applying a `createOrganization` or `createUser` intent twice via the
consumer yields exactly the store produced by applying it once: the apply is
an unconditional full-overwrite put keyed by `data.orgId` (respectively
`data.userId`) whose item attributes are taken entirely from the intent, so
the second apply rewrites the identical item. -/
theorem createIntent_idempotent :
    (∀ s s2 d, applyMessage s (some "createOrganization") (some d) = Except.ok s2 →
       applyMessage s2 (some "createOrganization") (some d) = Except.ok s2 ∧
       ∃ k, d.orgId = some k ∧
         s2.orgs = putA k ⟨d.name, d.description, d.createdAt, d.updatedAt⟩ s.orgs ∧
         s2.users = s.users) ∧
    (∀ s s2 d, applyMessage s (some "createUser") (some d) = Except.ok s2 →
       applyMessage s2 (some "createUser") (some d) = Except.ok s2 ∧
       ∃ k, d.userId = some k ∧
         s2.users = putA k ⟨d.orgId, d.name, d.email, d.createdAt, d.updatedAt⟩ s.users ∧
         s2.orgs = s.orgs) := by
  constructor
  · intro s s2 d h
    rw [applyMessage_createOrg] at h ⊢
    cases hk : d.orgId with
    | none => simp [applyCreateOrg, hk] at h
    | some k =>
      simp only [applyCreateOrg, hk] at h
      injection h with h2
      subst h2
      refine ⟨?_, k, rfl, rfl, rfl⟩
      simp [applyCreateOrg, hk, putA_putA]
  · intro s s2 d h
    rw [applyMessage_createUser] at h ⊢
    cases hk : d.userId with
    | none => simp [applyCreateUser, hk] at h
    | some k =>
      simp only [applyCreateUser, hk] at h
      injection h with h2
      subst h2
      refine ⟨?_, k, rfl, rfl, rfl⟩
      simp [applyCreateUser, hk, putA_putA]

/-- Closed instance of createIntent_idempotent on a concrete intent and
store. -/
theorem createIntent_idempotent_witness :
    (applyMessage ⟨[("o1", ⟨some "Acme", some "D", some "t0", some "t0"⟩)], []⟩
        (some "createOrganization")
        (some ⟨some "o1", none, some "Acme", none, some "D", some "t0", some "t0"⟩) =
      Except.ok ⟨[("o1", ⟨some "Acme", some "D", some "t0", some "t0"⟩)], []⟩ ∧
     ∃ k, (some "o1" : Option String) = some k ∧
       [("o1", (⟨some "Acme", some "D", some "t0", some "t0"⟩ : OrgItem))] =
         putA k ⟨some "Acme", some "D", some "t0", some "t0"⟩ [] ∧
       ([] : List (String × UserItem)) = []) ∧
    (applyMessage ⟨[], [("u1", ⟨some "o1", some "Ann", some "a@x", some "t0", some "t0"⟩)]⟩
        (some "createUser")
        (some ⟨some "o1", some "u1", some "Ann", some "a@x", none, some "t0", some "t0"⟩) =
      Except.ok ⟨[], [("u1", ⟨some "o1", some "Ann", some "a@x", some "t0", some "t0"⟩)]⟩ ∧
     ∃ k, (some "u1" : Option String) = some k ∧
       [("u1", (⟨some "o1", some "Ann", some "a@x", some "t0", some "t0"⟩ : UserItem))] =
         putA k ⟨some "o1", some "Ann", some "a@x", some "t0", some "t0"⟩ [] ∧
       ([] : List (String × OrgItem)) = []) :=
  ⟨createIntent_idempotent.1 ⟨[], []⟩ _ _ rfl,
   createIntent_idempotent.2 ⟨[], []⟩ _ _ rfl⟩

/-- C2: applying an `updateOrganization` or `updateUser` intent twice via
the consumer yields the same store as applying it once; after any apply the
updatedAt of the target record equals the `updatedAt` value carried inside the
intent (`data.updatedAt`), not a timestamp computed at apply time; and only
the fields carried (truthy) in the intent are written — `createdAt` (and
`orgId`, for users), the untruthy fields and every other record are left
unchanged. -/
theorem updateIntent_idempotent :
    (∀ s s2 d k, d.orgId = some k →
       applyMessage s (some "updateOrganization") (some d) = Except.ok s2 →
       applyMessage s2 (some "updateOrganization") (some d) = Except.ok s2 ∧
       (lookupA k s2.orgs).bind OrgItem.updatedAt = d.updatedAt ∧
       (lookupA k s2.orgs).bind OrgItem.createdAt = (lookupA k s.orgs).bind OrgItem.createdAt ∧
       (truthy d.name = false →
         (lookupA k s2.orgs).bind OrgItem.name = (lookupA k s.orgs).bind OrgItem.name) ∧
       (truthy d.description = false →
         (lookupA k s2.orgs).bind OrgItem.description =
           (lookupA k s.orgs).bind OrgItem.description) ∧
       (∀ k2, k2 ≠ k → lookupA k2 s2.orgs = lookupA k2 s.orgs) ∧
       s2.users = s.users) ∧
    (∀ s s2 d k, d.userId = some k →
       applyMessage s (some "updateUser") (some d) = Except.ok s2 →
       applyMessage s2 (some "updateUser") (some d) = Except.ok s2 ∧
       (lookupA k s2.users).bind UserItem.updatedAt = d.updatedAt ∧
       (lookupA k s2.users).bind UserItem.createdAt = (lookupA k s.users).bind UserItem.createdAt ∧
       (lookupA k s2.users).bind UserItem.orgId = (lookupA k s.users).bind UserItem.orgId ∧
       (truthy d.name = false →
         (lookupA k s2.users).bind UserItem.name = (lookupA k s.users).bind UserItem.name) ∧
       (truthy d.email = false →
         (lookupA k s2.users).bind UserItem.email = (lookupA k s.users).bind UserItem.email) ∧
       (∀ k2, k2 ≠ k → lookupA k2 s2.users = lookupA k2 s.users) ∧
       s2.orgs = s.orgs) := by
  constructor
  · intro s s2 d k hk h
    rw [applyMessage_updateOrg] at h ⊢
    cases ht : d.updatedAt with
    | none => simp [applyUpdateOrg, hk, ht] at h
    | some t =>
      simp only [applyUpdateOrg, hk, ht] at h
      injection h with h2
      subst h2
      refine ⟨?_, ?_, ?_, ?_, ?_, ?_, rfl⟩
      · simp only [applyUpdateOrg, hk, ht]
        congr 1
        rw [Store.mk.injEq]
        refine ⟨?_, rfl⟩
        rw [lookupA_putA, if_pos rfl]
        simp only [Option.getD_some]
        rw [putA_putA]
        congr 1
        by_cases hn : truthy d.name <;> by_cases hd : truthy d.description <;>
          simp [hn, hd]
      · rw [lookupA_putA, if_pos rfl]
        simp
      · rw [lookupA_putA, if_pos rfl]
        cases hL : lookupA k s.orgs <;> simp [hL]
      · intro hn
        rw [lookupA_putA, if_pos rfl]
        cases hL : lookupA k s.orgs <;> simp [hL, hn]
      · intro hd
        rw [lookupA_putA, if_pos rfl]
        cases hL : lookupA k s.orgs <;> simp [hL, hd]
      · intro k2 hne
        rw [lookupA_putA, if_neg hne]
  · intro s s2 d k hk h
    rw [applyMessage_updateUser] at h ⊢
    cases ht : d.updatedAt with
    | none => simp [applyUpdateUser, hk, ht] at h
    | some t =>
      simp only [applyUpdateUser, hk, ht] at h
      injection h with h2
      subst h2
      refine ⟨?_, ?_, ?_, ?_, ?_, ?_, ?_, rfl⟩
      · simp only [applyUpdateUser, hk, ht]
        congr 1
        rw [Store.mk.injEq]
        refine ⟨rfl, ?_⟩
        rw [lookupA_putA, if_pos rfl]
        simp only [Option.getD_some]
        rw [putA_putA]
        congr 1
        by_cases hn : truthy d.name <;> by_cases he : truthy d.email <;>
          simp [hn, he]
      · rw [lookupA_putA, if_pos rfl]
        simp
      · rw [lookupA_putA, if_pos rfl]
        cases hL : lookupA k s.users <;> simp [hL]
      · rw [lookupA_putA, if_pos rfl]
        cases hL : lookupA k s.users <;> simp [hL]
      · intro hn
        rw [lookupA_putA, if_pos rfl]
        cases hL : lookupA k s.users <;> simp [hL, hn]
      · intro he
        rw [lookupA_putA, if_pos rfl]
        cases hL : lookupA k s.users <;> simp [hL, he]
      · intro k2 hne
        rw [lookupA_putA, if_neg hne]

/-- Closed instance of updateIntent_idempotent on a concrete intent
carrying only a description (organization) and a concrete user intent. -/
theorem updateIntent_idempotent_witness :
    (applyMessage ⟨[("o1", ⟨some "Acme", some "D2", some "t0", some "t1"⟩)], []⟩
        (some "updateOrganization")
        (some ⟨some "o1", none, none, none, some "D2", none, some "t1"⟩) =
      Except.ok ⟨[("o1", ⟨some "Acme", some "D2", some "t0", some "t1"⟩)], []⟩) ∧
    (applyMessage ⟨[], [("u1", ⟨some "o1", some "Bob", some "b@x", some "t0", some "t1"⟩)]⟩
        (some "updateUser")
        (some ⟨none, some "u1", some "Bob", some "b@x", none, none, some "t1"⟩) =
      Except.ok ⟨[], [("u1", ⟨some "o1", some "Bob", some "b@x", some "t0", some "t1"⟩)]⟩) :=
  ⟨(updateIntent_idempotent.1
      ⟨[("o1", ⟨some "Acme", some "D", some "t0", some "t0"⟩)], []⟩
      ⟨[("o1", ⟨some "Acme", some "D2", some "t0", some "t1"⟩)], []⟩
      ⟨some "o1", none, none, none, some "D2", none, some "t1"⟩ "o1" rfl rfl).1,
   (updateIntent_idempotent.2
      ⟨[], [("u1", ⟨some "o1", some "Ann", some "a@x", some "t0", some "t0"⟩)]⟩
      ⟨[], [("u1", ⟨some "o1", some "Bob", some "b@x", some "t0", some "t1"⟩)]⟩
      ⟨none, some "u1", some "Bob", some "b@x", none, none, some "t1"⟩ "u1" rfl rfl).1⟩

/-- C5: field-wise updates leave unmentioned fields unchanged.  An
`updateOrganization` intent that carries no (truthy) `name` leaves the
name of the stored organization unchanged while still setting `updatedAt`
to the value in the intent; an `updateUser` apply never modifies the `orgId` or
`createdAt` of any stored user — its update expression only ever sets `name`,
`email` and `updatedAt` of the keyed record. -/
theorem update_frame_effect :
    (∀ s s2 d k, d.orgId = some k → truthy d.name = false →
       applyMessage s (some "updateOrganization") (some d) = Except.ok s2 →
       (lookupA k s2.orgs).bind OrgItem.name = (lookupA k s.orgs).bind OrgItem.name ∧
       (lookupA k s2.orgs).bind OrgItem.updatedAt = d.updatedAt) ∧
    (∀ s s2 d k, d.userId = some k →
       applyMessage s (some "updateUser") (some d) = Except.ok s2 →
       (lookupA k s2.users).bind UserItem.orgId = (lookupA k s.users).bind UserItem.orgId ∧
       (lookupA k s2.users).bind UserItem.createdAt =
         (lookupA k s.users).bind UserItem.createdAt ∧
       ∀ k2, k2 ≠ k → lookupA k2 s2.users = lookupA k2 s.users) := by
  constructor
  · intro s s2 d k hk hn h
    rw [applyMessage_updateOrg] at h
    cases ht : d.updatedAt with
    | none => simp [applyUpdateOrg, hk, ht] at h
    | some t =>
      simp only [applyUpdateOrg, hk, ht] at h
      injection h with h2
      subst h2
      constructor
      · rw [lookupA_putA, if_pos rfl]
        cases hL : lookupA k s.orgs <;> simp [hL, hn]
      · rw [lookupA_putA, if_pos rfl]
        simp
  · intro s s2 d k hk h
    rw [applyMessage_updateUser] at h
    cases ht : d.updatedAt with
    | none => simp [applyUpdateUser, hk, ht] at h
    | some t =>
      simp only [applyUpdateUser, hk, ht] at h
      injection h with h2
      subst h2
      refine ⟨?_, ?_, ?_⟩
      · rw [lookupA_putA, if_pos rfl]
        cases hL : lookupA k s.users <;> simp [hL]
      · rw [lookupA_putA, if_pos rfl]
        cases hL : lookupA k s.users <;> simp [hL]
      · intro k2 hne
        rw [lookupA_putA, if_neg hne]

/-- Closed instance of update_frame_effect: a description-only
organization update keeps the name and sets updatedAt; a user update keeps
orgId and createdAt. -/
theorem update_frame_effect_witness :
    ((lookupA "o1"
        [("o1", (⟨some "Acme", some "D2", some "t0", some "t1"⟩ : OrgItem))]).bind
          OrgItem.name =
       (lookupA "o1"
         [("o1", (⟨some "Acme", some "D", some "t0", some "t0"⟩ : OrgItem))]).bind
           OrgItem.name ∧
     (lookupA "o1"
        [("o1", (⟨some "Acme", some "D2", some "t0", some "t1"⟩ : OrgItem))]).bind
          OrgItem.updatedAt = some "t1") ∧
    ((lookupA "u1"
        [("u1", (⟨some "o1", some "Bob", some "b@x", some "t0", some "t1"⟩ : UserItem))]).bind
          UserItem.orgId =
       (lookupA "u1"
         [("u1", (⟨some "o1", some "Ann", some "a@x", some "t0", some "t0"⟩ : UserItem))]).bind
           UserItem.orgId ∧
     (lookupA "u1"
        [("u1", (⟨some "o1", some "Bob", some "b@x", some "t0", some "t1"⟩ : UserItem))]).bind
          UserItem.createdAt =
       (lookupA "u1"
         [("u1", (⟨some "o1", some "Ann", some "a@x", some "t0", some "t0"⟩ : UserItem))]).bind
           UserItem.createdAt ∧
     ∀ k2, k2 ≠ "u1" →
       lookupA k2 [("u1", (⟨some "o1", some "Bob", some "b@x", some "t0", some "t1"⟩ : UserItem))] =
         lookupA k2 [("u1", (⟨some "o1", some "Ann", some "a@x", some "t0", some "t0"⟩ : UserItem))]) :=
  ⟨update_frame_effect.1
      ⟨[("o1", ⟨some "Acme", some "D", some "t0", some "t0"⟩)], []⟩
      ⟨[("o1", ⟨some "Acme", some "D2", some "t0", some "t1"⟩)], []⟩
      ⟨some "o1", none, none, none, some "D2", none, some "t1"⟩ "o1" rfl rfl rfl,
   update_frame_effect.2
      ⟨[], [("u1", ⟨some "o1", some "Ann", some "a@x", some "t0", some "t0"⟩)]⟩
      ⟨[], [("u1", ⟨some "o1", some "Bob", some "b@x", some "t0", some "t1"⟩)]⟩
      ⟨none, some "u1", some "Bob", some "b@x", none, none, some "t1"⟩ "u1" rfl rfl⟩

/-- C3: if processing the i-th record of a batch raises, the error is
re-raised out of the consumer invocation (the whole batch is reported
failed), the store effects of the records processed earlier in the same
batch remain in place — the resulting store is exactly the store after the
prefix, with no rollback — and the remaining records are not processed. -/
theorem batch_error_propagation :
    ∀ pre (r : SqsRecord) (rest : List SqsRecord) (s s2 : Store) (e : ConsumerError),
      processSqsMessages pre s = (s2, none) →
      processRecord s2 r = Except.error e →
      processSqsMessages (pre ++ r :: rest) s = (s2, some e) := by
  intro pre
  induction pre with
  | nil =>
    intro r rest s s2 e h1 h2
    simp only [processSqsMessages] at h1
    obtain ⟨rfl, -⟩ := Prod.mk.injEq .. ▸ h1
    simp [processSqsMessages, h2]
  | cons p t ih =>
    intro r rest s s2 e h1 h2
    simp only [processSqsMessages] at h1
    cases hp : processRecord s p with
    | ok s1 =>
      rw [hp] at h1
      simpa [processSqsMessages, hp] using ih r rest s1 s2 e h1 h2
    | error e1 =>
      rw [hp] at h1
      simp at h1

/-- Closed instance of batch_error_propagation: a batch whose first record
creates an organization and whose second record is an `updateOrganization`
intent with no `data.orgId` (the DynamoDB update is rejected for the
missing key) ends with the error reported, the write of the first record kept,
and the third record unprocessed. -/
theorem batch_error_propagation_witness :
    processSqsMessages
      [⟨some ⟨some "createOrganization",
             some ⟨some "o1", none, some "Acme", none, some "D", some "t0", some "t0"⟩⟩⟩,
       ⟨some ⟨some "updateOrganization",
             some ⟨none, none, some "B", none, none, none, some "t1"⟩⟩⟩,
       ⟨some ⟨some "createOrganization",
             some ⟨some "o2", none, some "Beta", none, some "E", some "t2", some "t2"⟩⟩⟩]
      ⟨[], []⟩ =
    (⟨[("o1", ⟨some "Acme", some "D", some "t0", some "t0"⟩)], []⟩,
     some ConsumerError.storeError) :=
  batch_error_propagation
    [⟨some ⟨some "createOrganization",
           some ⟨some "o1", none, some "Acme", none, some "D", some "t0", some "t0"⟩⟩⟩]
    ⟨some ⟨some "updateOrganization",
          some ⟨none, none, some "B", none, none, none, some "t1"⟩⟩⟩
    [⟨some ⟨some "createOrganization",
           some ⟨some "o2", none, some "Beta", none, some "E", some "t2", some "t2"⟩⟩⟩]
    ⟨[], []⟩
    ⟨[("o1", ⟨some "Acme", some "D", some "t0", some "t0"⟩)], []⟩
    ConsumerError.storeError rfl rfl

/-- C4 counterexample: a record whose body does not parse is NOT dropped —
the consumer re-throws, the batch ends with the parse error, and the
well-formed `createOrganization` record that follows it in the same batch
is never applied (the store stays empty), contradicting the claim that a
malformed message is logged and dropped with processing of subsequent
intents continuing. -/
theorem malformed_record_fails_batch :
    processSqsMessages
      [⟨none⟩,
       ⟨some ⟨some "createOrganization",
             some ⟨some "o1", none, some "Acme", none, some "D", some "t0", some "t0"⟩⟩⟩]
      ⟨[], []⟩ = (⟨[], []⟩, some ConsumerError.parseError) ∧
    some ConsumerError.parseError ≠ (none : Option ConsumerError) := by
  exact ⟨rfl, by simp⟩

/-- C4 (amended): a record that parses to an unknown or missing `operation`
value is logged and dropped without being retried, and processing of the
subsequent records of the batch continues unaffected; a record whose body
does not parse, however, re-raises and fails the batch. -/
theorem unknown_operation_skipped :
    ∀ (s : Store) (rest : List SqsRecord) (op : Option String) (d : Option IntentData),
      op ≠ some "createOrganization" → op ≠ some "updateOrganization" →
      op ≠ some "createUser" → op ≠ some "updateUser" →
      processSqsMessages (⟨some ⟨op, d⟩⟩ :: rest) s = processSqsMessages rest s := by
  intro s rest op d h1 h2 h3 h4
  simp [processSqsMessages, processRecord, applyMessage, h1, h2, h3, h4]

/-- Closed instance of unknown_operation_skipped: a `deleteOrganization`
record is skipped and the following record is still processed. -/
theorem unknown_operation_skipped_witness :
    processSqsMessages
      [⟨some ⟨some "deleteOrganization", some ⟨some "o1", none, none, none, none, none, none⟩⟩⟩,
       ⟨some ⟨some "createOrganization",
             some ⟨some "o1", none, some "Acme", none, some "D", some "t0", some "t0"⟩⟩⟩]
      ⟨[], []⟩ =
    processSqsMessages
      [⟨some ⟨some "createOrganization",
             some ⟨some "o1", none, some "Acme", none, some "D", some "t0", some "t0"⟩⟩⟩]
      ⟨[], []⟩ :=
  unknown_operation_skipped ⟨[], []⟩
    [⟨some ⟨some "createOrganization",
           some ⟨some "o1", none, some "Acme", none, some "D", some "t0", some "t0"⟩⟩⟩]
    (some "deleteOrganization") (some ⟨some "o1", none, none, none, none, none, none⟩)
    (by simp) (by simp) (by simp) (by simp)

/-- C6: POST /organizations.  A request with `name` or `description`
missing (absent or empty, the `if (!x)` check) fails with 400 and publishes
nothing; a request whose name is already carried by some stored
organization fails with 409 and publishes nothing; otherwise the producer
publishes exactly one `createOrganization` intent carrying the fresh
`orgId` and fresh timestamps and answers 202 with that id.  On every path
the store is left untouched: the async producer never writes to it. -/
theorem submitCreateOrganization_spec :
    ∀ (s : Store) (name description : Option String) (freshId now : String),
      ((truthy name = false ∨ truthy description = false) →
        createOrganization s name description freshId now = ⟨400, [], none, s⟩) ∧
      (∀ n dsc, name = some n → description = some dsc → n ≠ "" → dsc ≠ "" →
        ((∃ p ∈ s.orgs, p.2.name = some n) →
          createOrganization s name description freshId now = ⟨409, [], none, s⟩) ∧
        ((∀ p ∈ s.orgs, p.2.name ≠ some n) →
          createOrganization s name description freshId now =
            ⟨202, [⟨some "createOrganization",
                    some ⟨some freshId, none, some n, none, some dsc, some now, some now⟩⟩],
             some freshId, s⟩)) ∧
      (createOrganization s name description freshId now).store = s := by
  intro s name description freshId now
  refine ⟨?_, ?_, ?_⟩
  · intro h
    cases name with
    | none => cases description <;> rfl
    | some n =>
      cases description with
      | none => rfl
      | some dsc =>
        have hg : (n == "" || dsc == "") = true := by
          rcases h with h | h <;> simp [truthy] at h <;> simp [h]
        simp [createOrganization, hg]
  · intro n dsc hn hdsc hne hdne
    subst hn
    subst hdsc
    have hg : (n == "" || dsc == "") = false := by simp [hne, hdne]
    constructor
    · rintro ⟨p, hp, hname⟩
      have hfil : ¬orgsWithName n s.orgs = [] := by
        intro h0
        rw [orgsWithName, List.filter_eq_nil_iff] at h0
        exact h0 p hp (by simp [hname])
      simp [createOrganization, hg, hfil]
    · intro hall
      have hfil : orgsWithName n s.orgs = [] := by
        rw [orgsWithName, List.filter_eq_nil_iff]
        intro p hp
        simp only [beq_iff_eq]
        exact hall p hp
      simp [createOrganization, hg, hfil]
  · cases name with
    | none => cases description <;> rfl
    | some n =>
      cases description with
      | none => rfl
      | some dsc =>
        simp only [createOrganization]
        split
        · rfl
        · split <;> rfl

/-- Closed instance of submitCreateOrganization_spec exercising the 400,
409 and 202 branches on a concrete store. -/
theorem submitCreateOrganization_spec_witness :
    createOrganization ⟨[("o1", ⟨some "Acme", some "D0", some "t0", some "t0"⟩)], []⟩
        none (some "D") "f1" "t1" =
      ⟨400, [], none, ⟨[("o1", ⟨some "Acme", some "D0", some "t0", some "t0"⟩)], []⟩⟩ ∧
    createOrganization ⟨[("o1", ⟨some "Acme", some "D0", some "t0", some "t0"⟩)], []⟩
        (some "Acme") (some "D") "f1" "t1" =
      ⟨409, [], none, ⟨[("o1", ⟨some "Acme", some "D0", some "t0", some "t0"⟩)], []⟩⟩ ∧
    createOrganization ⟨[("o1", ⟨some "Acme", some "D0", some "t0", some "t0"⟩)], []⟩
        (some "Beta") (some "D") "f1" "t1" =
      ⟨202, [⟨some "createOrganization",
              some ⟨some "f1", none, some "Beta", none, some "D", some "t1", some "t1"⟩⟩],
       some "f1", ⟨[("o1", ⟨some "Acme", some "D0", some "t0", some "t0"⟩)], []⟩⟩ :=
  ⟨(submitCreateOrganization_spec
      ⟨[("o1", ⟨some "Acme", some "D0", some "t0", some "t0"⟩)], []⟩
      none (some "D") "f1" "t1").1 (Or.inl rfl),
   ((submitCreateOrganization_spec
      ⟨[("o1", ⟨some "Acme", some "D0", some "t0", some "t0"⟩)], []⟩
      (some "Acme") (some "D") "f1" "t1").2.1 "Acme" "D" rfl rfl
      (by decide) (by decide)).1 (by decide),
   ((submitCreateOrganization_spec
      ⟨[("o1", ⟨some "Acme", some "D0", some "t0", some "t0"⟩)], []⟩
      (some "Beta") (some "D") "f1" "t1").2.1 "Beta" "D" rfl rfl
      (by decide) (by decide)).2 (by decide)⟩

/-- C8: PUT /organizations.  A request with `orgId` missing, or with both
`name` and `description` missing (absent or empty), fails with 400 and
publishes no intent; a request whose `orgId` names no stored organization
at validation time fails with 404 and publishes no intent; otherwise the
producer publishes exactly one `updateOrganization` intent carrying the
`name`/`description` of the request as given plus a fresh `updatedAt` (and no
`createdAt`), and the store is untouched on every path. -/
theorem submitUpdateOrganization_spec :
    ∀ (s : Store) (orgId name description : Option String) (now : String),
      ((truthy orgId = false ∨ (truthy name = false ∧ truthy description = false)) →
        updateOrganization s orgId name description now = ⟨400, [], none, s⟩) ∧
      (∀ o, orgId = some o → o ≠ "" →
        (truthy name = true ∨ truthy description = true) →
        (lookupA o s.orgs = none →
          updateOrganization s orgId name description now = ⟨404, [], none, s⟩) ∧
        (∀ it, lookupA o s.orgs = some it →
          updateOrganization s orgId name description now =
            ⟨202, [⟨some "updateOrganization",
                    some ⟨some o, none, name, none, description, none, some now⟩⟩],
             some o, s⟩)) ∧
      (updateOrganization s orgId name description now).store = s := by
  intro s orgId name description now
  refine ⟨?_, ?_, ?_⟩
  · intro h
    cases orgId with
    | none => rfl
    | some o =>
      rcases h with h | h
      · simp only [truthy] at h
        have ho : (o == "") = true := by simp at h; simp [h]
        simp [updateOrganization, ho]
      · by_cases ho : (o == "") = true
        · simp [updateOrganization, ho]
        · simp [updateOrganization, ho, h.1, h.2]
  · intro o hο hone htr
    subst hο
    have ho : (o == "") = false := by simp [hone]
    have htn : (truthy name = false && truthy description = false) = false := by
      rcases htr with h | h <;> simp [h]
    constructor
    · intro hL
      simp [updateOrganization, ho, htn, hL]
      intro hn
      exact htr.resolve_left (by simp [hn])
    · intro it hL
      simp [updateOrganization, ho, htn, hL]
      intro hn
      exact htr.resolve_left (by simp [hn])
  · cases orgId with
    | none => rfl
    | some o =>
      simp only [updateOrganization]
      split
      · rfl
      · split
        · rfl
        · split <;> rfl

/-- Closed instance of submitUpdateOrganization_spec exercising the 400,
404 and 202 branches on a concrete store. -/
theorem submitUpdateOrganization_spec_witness :
    updateOrganization ⟨[("o1", ⟨some "Acme", some "D0", some "t0", some "t0"⟩)], []⟩
        (some "o1") none (some "") "t1" =
      ⟨400, [], none, ⟨[("o1", ⟨some "Acme", some "D0", some "t0", some "t0"⟩)], []⟩⟩ ∧
    updateOrganization ⟨[("o1", ⟨some "Acme", some "D0", some "t0", some "t0"⟩)], []⟩
        (some "missing-id") (some "X") none "t1" =
      ⟨404, [], none, ⟨[("o1", ⟨some "Acme", some "D0", some "t0", some "t0"⟩)], []⟩⟩ ∧
    updateOrganization ⟨[("o1", ⟨some "Acme", some "D0", some "t0", some "t0"⟩)], []⟩
        (some "o1") (some "X") none "t1" =
      ⟨202, [⟨some "updateOrganization",
              some ⟨some "o1", none, some "X", none, none, none, some "t1"⟩⟩],
       some "o1", ⟨[("o1", ⟨some "Acme", some "D0", some "t0", some "t0"⟩)], []⟩⟩ :=
  ⟨(submitUpdateOrganization_spec
      ⟨[("o1", ⟨some "Acme", some "D0", some "t0", some "t0"⟩)], []⟩
      (some "o1") none (some "") "t1").1 (Or.inr ⟨rfl, rfl⟩),
   ((submitUpdateOrganization_spec
      ⟨[("o1", ⟨some "Acme", some "D0", some "t0", some "t0"⟩)], []⟩
      (some "missing-id") (some "X") none "t1").2.1 "missing-id" rfl
      (by decide) (Or.inl rfl)).1 rfl,
   ((submitUpdateOrganization_spec
      ⟨[("o1", ⟨some "Acme", some "D0", some "t0", some "t0"⟩)], []⟩
      (some "o1") (some "X") none "t1").2.1 "o1" rfl
      (by decide) (Or.inl rfl)).2 ⟨some "Acme", some "D0", some "t0", some "t0"⟩ rfl⟩

/-- C9: GET /organizations/\x7borgId\x7d/users/\x7buserId\x7d.  For every store state
(and non-empty path parameters), the read answers 200 with a user record
exactly when the `Users` table holds that record under the key `userId` and
the `orgId` attribute of the record equals the requested organization; when the
record is absent, or present but belonging to a different organization, it
answers 404 with no record; and the read never modifies the store. -/
theorem getUser_spec :
    ∀ (s : Store) (o u : String), o ≠ "" → u ≠ "" →
      (∀ it, getUser s (some o) (some u) = (200, some it, s) ↔
        (lookupA u s.users = some it ∧ it.orgId = some o)) ∧
      ((∀ it, lookupA u s.users = some it → it.orgId ≠ some o) →
        getUser s (some o) (some u) = (404, none, s)) ∧
      (getUser s (some o) (some u)).2.2 = s := by
  intro s o u ho hu
  have hg : (o == "" || u == "") = false := by simp [ho, hu]
  refine ⟨?_, ?_, ?_⟩
  · intro it
    cases hL : lookupA u s.users with
    | none => simp [getUser, hg, hL]
    | some it0 =>
      by_cases hm : it0.orgId = some o
      · simp only [getUser, hg, Bool.false_eq_true, if_false, hL, hm, beq_self_eq_true,
          if_true, beq_iff_eq]
        constructor
        · intro he
          have : some it0 = some it := congrArg (fun x => x.2.1) he
          injection this with h2
          subst h2
          exact ⟨rfl, hm⟩
        · intro ⟨h1, h2⟩
          injection h1 with h1
          subst h1
          rfl
      · have hb : (it0.orgId == some o) = false := by simp [hm]
        simp only [getUser, hg, Bool.false_eq_true, if_false, hL, hb]
        constructor
        · intro he
          exact absurd (congrArg (fun x => x.1) he) (by simp)
        · intro ⟨h1, h2⟩
          injection h1 with h1
          subst h1
          exact absurd h2 hm
  · intro hall
    cases hL : lookupA u s.users with
    | none => simp [getUser, hg, hL]
    | some it0 =>
      have hb : (it0.orgId == some o) = false := by simp [hall it0 hL]
      simp [getUser, hg, hL, hb]
  · cases hL : lookupA u s.users with
    | none => simp [getUser, hg, hL]
    | some it0 =>
      by_cases hm : (it0.orgId == some o) = true <;> simp [getUser, hg, hL, hm]

/-- Closed instance of getUser_spec: a present, correctly scoped user is
returned; a present but differently scoped user and an absent user give
404; the store is untouched. -/
theorem getUser_spec_witness :
    (getUser ⟨[], [("u1", ⟨some "o1", some "Ann", some "a@x", some "t0", some "t0"⟩)]⟩
        (some "o1") (some "u1") =
      (200, some ⟨some "o1", some "Ann", some "a@x", some "t0", some "t0"⟩,
       ⟨[], [("u1", ⟨some "o1", some "Ann", some "a@x", some "t0", some "t0"⟩)]⟩)) ∧
    (getUser ⟨[], [("u1", ⟨some "o1", some "Ann", some "a@x", some "t0", some "t0"⟩)]⟩
        (some "o2") (some "u1") =
      (404, none,
       ⟨[], [("u1", ⟨some "o1", some "Ann", some "a@x", some "t0", some "t0"⟩)]⟩)) :=
  ⟨((getUser_spec ⟨[], [("u1", ⟨some "o1", some "Ann", some "a@x", some "t0", some "t0"⟩)]⟩
      "o1" "u1" (by decide) (by decide)).1
      ⟨some "o1", some "Ann", some "a@x", some "t0", some "t0"⟩).mpr ⟨rfl, rfl⟩,
   (getUser_spec ⟨[], [("u1", ⟨some "o1", some "Ann", some "a@x", some "t0", some "t0"⟩)]⟩
      "o2" "u1" (by decide) (by decide)).2.1 (by decide)⟩

/-- C10 counterexample: a PUT user request against a valid organization
whose body supplies a `userId` not present in the store can still fail —
here another user of the organization already carries the requested email,
so the producer answers 409 and publishes nothing, refuting the claim that
every such request succeeds and publishes an `updateUser` intent. -/
theorem putUser_counterexample :
    createOrUpdateUser
      ⟨[("A", ⟨some "Acme", some "D", some "t0", some "t0"⟩)],
       [("u1", ⟨some "A", some "Ann", some "x@x", some "t0", some "t0"⟩)]⟩
      Method.put (some "A") (some "u9") (some "Bob") (some "x@x") "fresh" "t1" =
      ⟨409, [],
       none, ⟨[("A", ⟨some "Acme", some "D", some "t0", some "t0"⟩)],
       [("u1", ⟨some "A", some "Ann", some "x@x", some "t0", some "t0"⟩)]⟩⟩ ∧
    (409 : Nat) ≠ 202 :=
  ⟨rfl, by decide⟩

/-- C10 (amended): the user update path never verifies that the target user
exists.  For every PUT user request with a valid organization that passes
field validation (`name`, `email` non-missing) and whose email collides
with no user of that organization, the producer does not fail even when the
resolved `userId` (the supplied value, or the fresh one when absent) is not
present in the store: it answers 202 and publishes an `updateUser` intent,
and applying that intent creates a brand-new record at that `userId`
containing only `name`, `email` and `updatedAt` — no `orgId` and no
`createdAt` field. -/
theorem putUser_no_existence_check :
    ∀ (s : Store) (orgItem : OrgItem) (o n e : String) (userId : Option String)
      (freshId now : String),
      o ≠ "" → n ≠ "" → e ≠ "" →
      lookupA o s.orgs = some orgItem →
      lookupA (resolveId userId freshId) s.users = none →
      (∀ p ∈ s.users, ¬(p.2.orgId = some o ∧ p.2.email = some e)) →
      createOrUpdateUser s Method.put (some o) userId (some n) (some e) freshId now =
        ⟨202, [⟨some "updateUser",
                some ⟨some o, some (resolveId userId freshId), some n, some e,
                      none, some now, some now⟩⟩],
         some (resolveId userId freshId), s⟩ ∧
      ∃ s2, applyMessage s (some "updateUser")
          (some ⟨some o, some (resolveId userId freshId), some n, some e,
                 none, some now, some now⟩) = Except.ok s2 ∧
        lookupA (resolveId userId freshId) s2.users =
          some ⟨none, some n, some e, none, some now⟩ ∧
        (∀ k2, k2 ≠ resolveId userId freshId → lookupA k2 s2.users = lookupA k2 s.users) ∧
        s2.orgs = s.orgs := by
  intro s orgItem o n e userId freshId now ho hn he horg hnone hall
  have hg : (o == "" || n == "" || e == "") = false := by simp [ho, hn, he]
  have hfil : usersWithEmail o e s.users = [] := by
    rw [usersWithEmail, List.filter_eq_nil_iff]
    intro p hp hcontra
    rw [Bool.and_eq_true, beq_iff_eq, beq_iff_eq] at hcontra
    exact hall p hp hcontra
  have htn : truthy (some n) = true := by simp [truthy, hn]
  have hte : truthy (some e) = true := by simp [truthy, he]
  constructor
  · simp [createOrUpdateUser, hg, horg, hfil]
  · refine ⟨⟨s.orgs, putA (resolveId userId freshId)
        ⟨none, some n, some e, none, some now⟩ s.users⟩, ?_, ?_, ?_, rfl⟩
    · rw [applyMessage_updateUser]
      simp [applyUpdateUser, hnone, htn, hte]
    · rw [lookupA_putA, if_pos rfl]
    · intro k2 hne
      rw [lookupA_putA, if_neg hne]

/-- Closed instance of putUser_no_existence_check: a PUT with a fresh
`userId` against a valid organization with no email conflict is accepted
and its apply creates the orphan record. -/
theorem putUser_no_existence_check_witness :
    createOrUpdateUser ⟨[("A", ⟨some "Acme", some "D", some "t0", some "t0"⟩)], []⟩
        Method.put (some "A") (some "u9") (some "Bob") (some "b@x") "fresh" "t1" =
      ⟨202, [⟨some "updateUser",
              some ⟨some "A", some (resolveId (some "u9") "fresh"), some "Bob", some "b@x",
                    none, some "t1", some "t1"⟩⟩],
       some (resolveId (some "u9") "fresh"),
       ⟨[("A", ⟨some "Acme", some "D", some "t0", some "t0"⟩)], []⟩⟩ ∧
    ∃ s2, applyMessage ⟨[("A", ⟨some "Acme", some "D", some "t0", some "t0"⟩)], []⟩
        (some "updateUser")
        (some ⟨some "A", some (resolveId (some "u9") "fresh"), some "Bob", some "b@x",
               none, some "t1", some "t1"⟩) = Except.ok s2 ∧
      lookupA (resolveId (some "u9") "fresh") s2.users =
        some ⟨none, some "Bob", some "b@x", none, some "t1"⟩ ∧
      (∀ k2, k2 ≠ resolveId (some "u9") "fresh" →
        lookupA k2 s2.users = lookupA k2 ([] : List (String × UserItem))) ∧
      s2.orgs = [("A", ⟨some "Acme", some "D", some "t0", some "t0"⟩)] :=
  putUser_no_existence_check
    ⟨[("A", ⟨some "Acme", some "D", some "t0", some "t0"⟩)], []⟩
    ⟨some "Acme", some "D", some "t0", some "t0"⟩
    "A" "Bob" "b@x" (some "u9") "fresh" "t1"
    (by decide) (by decide) (by decide) rfl rfl (by simp)

theorem noDupEmails_putA {l : List (String × UserItem)} {rid : String} {it : UserItem}
    {o e : String} (ho : it.orgId = some o) (he : it.email = some e)
    (hinv : NoDupEmails l)
    (hfresh : ∀ k2 u2, k2 ≠ rid → lookupA k2 l = some u2 →
      u2.orgId = some o → u2.email = some e → False) :
    NoDupEmails (putA rid it l) := by
  intro k1 k2 u1 u2 o1 e1 hne h1 h2 ho1 ho2 he1 he2
  rw [lookupA_putA] at h1 h2
  by_cases hk1 : k1 = rid
  · rw [if_pos hk1] at h1
    injection h1 with h1
    subst h1
    have hk2 : ¬k2 = rid := fun hh => hne (hk1.trans hh.symm)
    rw [if_neg hk2] at h2
    rw [ho] at ho1
    injection ho1 with ho1
    rw [he] at he1
    injection he1 with he1
    subst ho1
    subst he1
    exact hfresh k2 u2 hk2 h2 ho2 he2
  · rw [if_neg hk1] at h1
    by_cases hk2 : k2 = rid
    · rw [if_pos hk2] at h2
      injection h2 with h2
      subst h2
      rw [ho] at ho2
      injection ho2 with ho2
      rw [he] at he2
      injection he2 with he2
      subst ho2
      subst he2
      exact hfresh k1 u1 hk1 h1 ho1 he1
    · rw [if_neg hk2] at h2
      exact hinv k1 k2 u1 u2 o1 e1 hne h1 h2 ho1 ho2 he1 he2

theorem noDupEmails_putA_noneOrg {l : List (String × UserItem)} {rid : String}
    {it : UserItem} (ho : it.orgId = none) (hinv : NoDupEmails l) :
    NoDupEmails (putA rid it l) := by
  intro k1 k2 u1 u2 o1 e1 hne h1 h2 ho1 ho2 he1 he2
  rw [lookupA_putA] at h1 h2
  by_cases hk1 : k1 = rid
  · rw [if_pos hk1] at h1
    injection h1 with h1
    subst h1
    rw [ho] at ho1
    cases ho1
  · rw [if_neg hk1] at h1
    by_cases hk2 : k2 = rid
    · rw [if_pos hk2] at h2
      injection h2 with h2
      subst h2
      rw [ho] at ho2
      cases ho2
    · rw [if_neg hk2] at h2
      exact hinv k1 k2 u1 u2 o1 e1 hne h1 h2 ho1 ho2 he1 he2

theorem users_runReq_createOrg (s : Store) (nm dsc : Option String) (f t : String) :
    (runReq s (.createOrg nm dsc f t)).users = s.users := by
  cases nm with
  | none => cases dsc <;> rfl
  | some n =>
    cases dsc with
    | none => rfl
    | some d0 =>
      simp only [runReq, createOrganization]
      split
      · rfl
      · split <;> rfl

theorem users_runReq_updateOrg (s : Store) (o nm dsc : Option String) (t : String) :
    (runReq s (.updateOrg o nm dsc t)).users = s.users := by
  cases o with
  | none => rfl
  | some o0 =>
    simp only [runReq, updateOrganization]
    split
    · rfl
    · split
      · rfl
      · split <;> rfl

theorem runReq_users_shape (s : Store) (r : Req) :
    (runReq s r).users = s.users ∨ ∃ k it, (runReq s r).users = putA k it s.users := by
  cases r with
  | createOrg nm dsc f t => exact Or.inl (users_runReq_createOrg s nm dsc f t)
  | updateOrg o nm dsc t => exact Or.inl (users_runReq_updateOrg s o nm dsc t)
  | submitUser m o u nm e f t =>
    cases o with
    | none =>
      cases nm <;> cases e <;> exact Or.inl rfl
    | some o0 =>
      cases nm with
      | none => cases e <;> exact Or.inl rfl
      | some n0 =>
        cases e with
        | none => exact Or.inl rfl
        | some e0 =>
          simp only [runReq, createOrUpdateUser]
          split
          · exact Or.inl rfl
          · cases hL : lookupA o0 s.orgs with
            | none => simp only [hL]; exact Or.inl rfl
            | some oi =>
              simp only [hL]
              split
              · exact Or.inl rfl
              · cases m with
                | post => exact Or.inr ⟨_, _, rfl⟩
                | put => exact Or.inr ⟨_, _, rfl⟩

theorem keys_nodup_runReq (s : Store) (r : Req)
    (hk : (s.users.map Prod.fst).Nodup) :
    ((runReq s r).users.map Prod.fst).Nodup := by
  rcases runReq_users_shape s r with h | ⟨k, it, h⟩
  · rw [h]; exact hk
  · rw [h]; exact nodup_keys_putA hk

theorem step_postUser_preserve (s : Store) (o u nm e : Option String) (f t : String)
    (hinv : NoDupEmails s.users) :
    NoDupEmails (runReq s (.submitUser Method.post o u nm e f t)).users := by
  cases o with
  | none => cases nm <;> cases e <;> exact hinv
  | some o0 =>
    cases nm with
    | none => cases e <;> exact hinv
    | some n0 =>
      cases e with
      | none => exact hinv
      | some e0 =>
        simp only [runReq, createOrUpdateUser]
        split
        · exact hinv
        · cases hL : lookupA o0 s.orgs with
          | none => simp only [hL]; exact hinv
          | some oi =>
            simp only [hL]
            rcases hfe : usersWithEmail o0 e0 s.users with _ | ⟨ex, tl⟩
            · simp only [hfe, Bool.false_eq_true, if_false, applyAccepted,
                applyMessage_createUser, applyCreateUser]
              apply noDupEmails_putA rfl rfl hinv
              intro k2 u2 hne h2 ho2 he2
              have hmem := lookupA_mem h2
              rw [usersWithEmail] at hfe
              have hnp := List.filter_eq_nil_iff.mp hfe _ hmem
              rw [Bool.and_eq_true, beq_iff_eq, beq_iff_eq] at hnp
              exact hnp ⟨ho2, he2⟩
            · simp only [hfe]
              simp [applyAccepted]
              exact hinv

theorem put_beq_post : (Method.put == Method.post) = false := rfl

theorem put_beq_put : (Method.put == Method.put) = true := rfl

theorem step_putUser_preserve (s : Store) (o u nm e : Option String) (f t : String)
    (hk : (s.users.map Prod.fst).Nodup) (hinv : NoDupEmails s.users)
    (hsafe : ∀ v, lookupA (resolveId u f) s.users = some v → v.orgId = o) :
    NoDupEmails (runReq s (.submitUser Method.put o u nm e f t)).users := by
  cases o with
  | none => cases nm <;> cases e <;> exact hinv
  | some o0 =>
    cases nm with
    | none => cases e <;> exact hinv
    | some n0 =>
      cases e with
      | none => exact hinv
      | some e0 =>
        simp only [runReq, createOrUpdateUser]
        split
        · exact hinv
        · rename_i hg
          have hn0 : (n0 == "") = false := by
            cases hb : (n0 == "") with
            | false => rfl
            | true => exact absurd (by simp [hb]) hg
          have he0 : (e0 == "") = false := by
            cases hb : (e0 == "") with
            | false => rfl
            | true => exact absurd (by simp [hb]) hg
          have htn : truthy (some n0) = true := by
            simp only [truthy, bne]
            rw [hn0]
            rfl
          have hte : truthy (some e0) = true := by
            simp only [truthy, bne]
            rw [he0]
            rfl
          cases hL : lookupA o0 s.orgs with
          | none => simp only [hL]; exact hinv
          | some oi =>
            simp only [hL]
            rcases hfe : usersWithEmail o0 e0 s.users with _ | ⟨ex, tl⟩
            · simp only [hfe, put_beq_post, Bool.false_eq_true, if_false, applyAccepted,
                applyMessage_updateUser, applyUpdateUser, htn, if_true, hte]
              cases hbase : lookupA (resolveId u f) s.users with
              | none =>
                simp only [Option.getD_none]
                exact noDupEmails_putA_noneOrg rfl hinv
              | some u0 =>
                simp only [Option.getD_some]
                refine noDupEmails_putA (o := o0) (e := e0) (hsafe u0 hbase) rfl hinv ?_
                intro k2 u2 hne h2 ho2 he2
                have hmem := lookupA_mem h2
                rw [usersWithEmail] at hfe
                have hnp := List.filter_eq_nil_iff.mp hfe _ hmem
                rw [Bool.and_eq_true, beq_iff_eq, beq_iff_eq] at hnp
                exact hnp ⟨ho2, he2⟩
            · by_cases hx : (ex.1 != resolveId u f) = true
              · simp only [hfe, put_beq_post, put_beq_put, hx, Bool.true_and,
                  Bool.false_or, if_true, applyAccepted]
                exact hinv
              · rw [Bool.not_eq_true] at hx
                have hx2 : ex.1 = resolveId u f := by
                  rw [bne] at hx
                  simpa using hx
                have hexmem : ex ∈ usersWithEmail o0 e0 s.users := by
                  rw [hfe]
                  exact List.mem_cons_self _ _
                have hexl : ex ∈ s.users := List.mem_of_mem_filter hexmem
                have hexpred := List.of_mem_filter hexmem
                rw [Bool.and_eq_true, beq_iff_eq, beq_iff_eq] at hexpred
                have hlook : lookupA (resolveId u f) s.users = some ex.2 := by
                  rw [← hx2]
                  exact lookupA_of_mem_nodup hk hexl
                simp only [hfe, put_beq_post, put_beq_put, hx, Bool.true_and,
                  Bool.false_or, Bool.false_eq_true, if_false, applyAccepted,
                  applyMessage_updateUser, applyUpdateUser, htn, if_true, hte]
                rw [hlook]
                simp only [Option.getD_some]
                refine noDupEmails_putA (o := o0) (e := e0) hexpred.1 rfl hinv ?_
                intro k2 u2 hne h2 ho2 he2
                exact hinv (resolveId u f) k2 ex.2 u2 o0 e0
                  (fun hh => hne hh.symm) hlook h2 hexpred.1 ho2 hexpred.2 he2

theorem step_preserve (s : Store) (r : Req) (hk : (s.users.map Prod.fst).Nodup)
    (hinv : NoDupEmails s.users) (hsafe : ReqSafe s r) :
    NoDupEmails (runReq s r).users := by
  cases r with
  | createOrg nm dsc f t =>
    rw [users_runReq_createOrg]
    exact hinv
  | updateOrg o nm dsc t =>
    rw [users_runReq_updateOrg]
    exact hinv
  | submitUser m o u nm e f t =>
    cases m with
    | post => exact step_postUser_preserve s o u nm e f t hinv
    | put => exact step_putUser_preserve s o u nm e f t hk hinv hsafe

theorem lookupA_two {α : Type} {k k1 k2 : String} {v v1 v2 : α}
    (h : lookupA k [(k1, v1), (k2, v2)] = some v) :
    (k = k1 ∧ v = v1) ∨ (k = k2 ∧ v = v2) := by
  simp only [lookupA] at h
  by_cases ha : k = k1
  · rw [if_pos ha] at h
    injection h with h
    exact Or.inl ⟨ha, h.symm⟩
  · rw [if_neg ha] at h
    by_cases hb : k = k2
    · rw [if_pos hb] at h
      injection h with h
      exact Or.inr ⟨hb, h.symm⟩
    · rw [if_neg hb] at h
      cases h

/-- C7 counterexample: the scoped-uniqueness invariant is violated by the
code even in the fully sequential regime.  Starting from a duplicate-free
store with organizations A and B and two users of B carrying distinct
emails, the single accepted-and-applied mutation PUT
/organizations/A/users with body userId u2 and the email already used by u1
in B passes validation (the email check is scoped to A) while its apply
rewrites the email of u2 without touching the `orgId` of u2, leaving two users of B
with the same email.  Hence the claim, stated for arbitrary accepted
sequences, is false. -/
theorem scoped_email_uniqueness_counterexample :
    ¬(∀ (s : Store) (rs : List Req), NoDupEmails s.users → AllAccepted s rs →
        NoDupEmails (runReqs s rs).users) := by
  intro hclaim
  have hinv0 : NoDupEmails
      ([("u1", ⟨some "B", some "Ann", some "x@x", some "t0", some "t0"⟩),
        ("u2", ⟨some "B", some "Bea", some "y@y", some "t0", some "t0"⟩)] :
        List (String × UserItem)) := by
    intro k1 k2 u1 u2 o e hne h1 h2 ho1 ho2 he1 he2
    rcases lookupA_two h1 with ⟨hk1, hv1⟩ | ⟨hk1, hv1⟩ <;>
      rcases lookupA_two h2 with ⟨hk2, hv2⟩ | ⟨hk2, hv2⟩
    · exact hne (hk1.trans hk2.symm)
    · subst hv1
      subst hv2
      have hcontra := he1.trans he2.symm
      simp at hcontra
    · subst hv1
      subst hv2
      have hcontra := he1.trans he2.symm
      simp at hcontra
    · exact hne (hk1.trans hk2.symm)
  have hres := hclaim
    ⟨[("A", ⟨some "Acme", some "DA", some "t0", some "t0"⟩),
      ("B", ⟨some "Beta", some "DB", some "t0", some "t0"⟩)],
     [("u1", ⟨some "B", some "Ann", some "x@x", some "t0", some "t0"⟩),
      ("u2", ⟨some "B", some "Bea", some "y@y", some "t0", some "t0"⟩)]⟩
    [Req.submitUser Method.put (some "A") (some "u2") (some "Zed") (some "x@x") "f9" "t1"]
    hinv0 ⟨rfl, trivial⟩
  exact hres "u1" "u2"
    ⟨some "B", some "Ann", some "x@x", some "t0", some "t0"⟩
    ⟨some "B", some "Zed", some "x@x", some "t0", some "t1"⟩
    "B" "x@x" (by decide) rfl rfl rfl rfl rfl rfl

/-- C7 (amended): starting from a store with unique user keys and no
duplicate emails per organization, after any sequence of sequential-regime
mutations (each submitted against the current store; accepted ones fully
applied by the consumer before the next is submitted, rejected ones leaving
the store untouched), the scoped-uniqueness invariant still holds — for all
users u1 and u2 under distinct keys with the same (present) `orgId`, their
(present) emails differ, while the same email may appear in two different
organizations — provided every user-update (PUT) mutation resolves to a
`userId` that is either absent from the store or names a user belonging to
the requested organization.  Without that restriction the invariant fails
(see the counterexample): the update path never checks the organization
of the stored user. -/
theorem scoped_email_uniqueness :
    ∀ (rs : List Req) (s : Store),
      (s.users.map Prod.fst).Nodup → NoDupEmails s.users → RunSafe s rs →
      NoDupEmails (runReqs s rs).users := by
  intro rs
  induction rs with
  | nil =>
    intro s hk hinv hsafe
    exact hinv
  | cons r rs2 ih =>
    intro s hk hinv hsafe
    exact ih (runReq s r) (keys_nodup_runReq s r hk)
      (step_preserve s r hk hinv hsafe.1) hsafe.2

/-- Closed instance of scoped_email_uniqueness: creating an organization
and then a user through the producer from the empty store keeps the
invariant. -/
theorem scoped_email_uniqueness_witness :
    NoDupEmails (runReqs ⟨[], []⟩
      [Req.createOrg (some "Acme") (some "D") "A" "t1",
       Req.submitUser Method.post (some "A") none (some "Bob") (some "b@x") "u1" "t2"]).users :=
  scoped_email_uniqueness
    [Req.createOrg (some "Acme") (some "D") "A" "t1",
     Req.submitUser Method.post (some "A") none (some "Bob") (some "b@x") "u1" "t2"]
    ⟨[], []⟩ (by simp)
    (by
      intro k1 k2 u1 u2 o e hne h1 h2 ho1 ho2 he1 he2
      simp [lookupA] at h1)
    ⟨trivial, trivial, trivial⟩

end ServerlessLab
